import Mathlib

/-!
Verification of the response-normalization and error-classification logic of
`src/streamlit_app.py` (the Glaucoma Agent single-page app).  The Python
helpers `classification_badge`, `infer_mime`-adjacent URL building,
`post_predict`, and the result-extraction / ratio-normalization /
HTML-rendering expressions of the main UI block are shallowly embedded below.

Modelling conventions:
* JSON values are the inductive `JValue`; Python `dict` objects are ordered
  association lists (`dict.get` returns the first binding).
* The network call performed by `requests.post` is abstracted by an
  `HttpOutcome` argument: either a raised `requests.exceptions.RequestException`
  with its description, or a response with an HTTP status code and the result
  of `resp.json()` (`none` when the body is not parseable JSON).
  `requests.Response.ok` is `status_code < 400`.
* JSON numbers (Python ints/floats) are modelled exactly as decimal pairs
  `jnum n e` denoting `n * 10 ^ e`; IEEE-754 binary rounding, `inf`/`nan`
  literals and underscore digit grouping accepted by Python `float()` are
  outside the model.
* Python `str.lower()` is modelled on ASCII letters.
-/

namespace Glaucoma

/-- JSON values as delivered by `resp.json()`.  A number is `jnum n e`,
denoting the decimal value `n * 10 ^ e`; objects are ordered key/value lists. -/
inductive JValue where
  | jnull
  | jbool (b : Bool)
  | jnum (n : ℤ) (e : ℤ)
  | jstr (s : String)
  | jarr (xs : List JValue)
  | jobj (fields : List (String × JValue))

/-- Python truthiness (`bool(x)`) of a JSON value: `None`, `False`, zero,
empty string, empty list and empty dict are falsy, everything else truthy. -/
def JValue.truthy : JValue → Bool
  | .jnull => false
  | .jbool b => b
  | .jnum n _ => n != 0
  | .jstr s => !s.data.isEmpty
  | .jarr xs => !xs.isEmpty
  | .jobj fs => !fs.isEmpty

/-- First binding of key `k` in an association list, as Python `dict`
lookup (`d[k]` when present). -/
def lookupFirst (d : List (String × JValue)) (k : String) : Option JValue :=
  match d with
  | [] => none
  | (k2, v) :: t => if k2 = k then some v else lookupFirst t k

/-- Python `d.get(k)`: the value bound to `k`, or `None` when absent. -/
def dictGet (d : List (String × JValue)) (k : String) : JValue :=
  (lookupFirst d k).getD .jnull

/-- Python `d.get(k, dflt)`: the value bound to `k`, or `dflt` when absent. -/
def dictGetD (d : List (String × JValue)) (k : String) (dflt : JValue) : JValue :=
  (lookupFirst d k).getD dflt

/-- Python `x or y` on values: `x` when truthy, else `y`. -/
def pyOrJ (x y : JValue) : JValue := if x.truthy then x else y

/-- Whitespace characters stripped by Python `str.strip()` with no argument
and accepted around `float()` literals. -/
def pyWhitespace (c : Char) : Bool :=
  c == ' ' || c == '\t' || c == '\n' || c == '\r' || c == '\x0b' || c == '\x0c'

/-- Strip leading and trailing Python whitespace from a character list
(Python `str.strip()`). -/
def stripWS (l : List Char) : List Char :=
  ((l.dropWhile pyWhitespace).reverse.dropWhile pyWhitespace).reverse

/-- ASCII model of Python `str.lower()` on one character. -/
def pyLowerChar (c : Char) : Char :=
  if 'A' ≤ c ∧ c ≤ 'Z' then Char.ofNat (c.toNat + 32) else c

/-- Boolean list-level `startswith` test. -/
def startsWithCL : List Char → List Char → Bool
  | [], _ => true
  | _ :: _, [] => false
  | a :: p, b :: l => a == b && startsWithCL p l

/-- Boolean list-level `endswith` test. -/
def endsWithCL (pat l : List Char) : Bool :=
  startsWithCL pat.reverse l.reverse

/-- Boolean substring test: does `pat` occur contiguously in the list
(Python `pat in s`)? -/
def hasSub (pat : List Char) : List Char → Bool
  | [] => pat.isEmpty
  | c :: t => startsWithCL pat (c :: t) || hasSub pat t

/-- Python `base_url.rstrip("/")` on the character list: remove every
trailing slash. -/
def rstripSlashes (l : List Char) : List Char :=
  (l.reverse.dropWhile (· == '/')).reverse

/-- The request URL built by `post_predict` (line 132 of the source):
`base_url.rstrip("/") + "/predict"`. -/
def buildPredictUrl (base : String) : String :=
  String.mk (rstripSlashes base.data) ++ "/predict"

/-- The CSS class chosen by `classification_badge` (lines 106-113): the text
is lowercased and stripped, then matched for the substrings `non` and
`suspect` in that order.  (`text or ""` in the source is the identity on
strings and is dropped here.) -/
def badgeClass (text : String) : String :=
  let t := stripWS (text.data.map pyLowerChar)
  if hasSub "non".data t then "badge-green"
  else if hasSub "suspect".data t then "badge-amber"
  else "badge-red"

/-- The markup returned by `classification_badge` (line 114): the raw input
text wrapped in a `span` carrying the chosen class. -/
def classification_badge (text : String) : String :=
  "<span class=\"status-badge " ++ badgeClass text ++ "\">" ++ text ++ "</span>"

/-- Claim-side helper: case-insensitive substring test on strings (the
pattern is given lowercase). -/
def containsCI (text pat : String) : Bool :=
  hasSub pat.data (text.data.map pyLowerChar)

/-- Value of digit characters read in base 10 (used by the `float()` model). -/
def natOfDigits (l : List Char) : ℕ :=
  l.foldl (fun a c => 10 * a + (c.toNat - 48)) 0

/-- Mantissa part of a Python `float()` literal: `digits[.digits]` with at
least one digit overall.  Returns the digits read as an integer together with
the number of fractional digits. -/
def parseMantissa (l : List Char) : Option (ℕ × ℕ) :=
  match l.span Char.isDigit with
  | (ip, rest) =>
    match rest with
    | [] => if ip.isEmpty then none else some (natOfDigits ip, 0)
    | '.' :: fp =>
      if fp.all Char.isDigit && !(ip.isEmpty && fp.isEmpty) then
        some (natOfDigits (ip ++ fp), fp.length)
      else none
    | _ => none

/-- Optional leading sign of a numeric literal; returns (is-negative, rest). -/
def parseSign : List Char → Bool × List Char
  | '+' :: t => (false, t)
  | '-' :: t => (true, t)
  | l => (false, l)

/-- Exponent part of a Python `float()` literal (after the `e`/`E`). -/
def parseExpPart (l : List Char) : Option ℤ :=
  match parseSign l with
  | (neg, r) =>
    if r.isEmpty || !r.all Char.isDigit then none
    else some (if neg then -(natOfDigits r : ℤ) else (natOfDigits r : ℤ))

/-- Python `float()` on a string, modelled on finite decimal literals:
optional surrounding whitespace, optional sign, `digits[.digits]` and an
optional `e`/`E` exponent.  The result is an exact decimal pair `(n, e)`
denoting `n * 10 ^ e`.  `inf`/`nan` names and underscore grouping are not
modelled. -/
def pyFloatOfChars (l : List Char) : Option (ℤ × ℤ) :=
  match parseSign (stripWS l) with
  | (neg, r) =>
    match r.span (fun c => !(c == 'e' || c == 'E')) with
    | (mant, rest) =>
      let core : Option (ℤ × ℤ) :=
        match rest with
        | [] => (parseMantissa mant).map (fun p => ((p.1 : ℤ), -(p.2 : ℤ)))
        | _ :: etail => do
          let p ← parseMantissa mant
          let ex ← parseExpPart etail
          some ((p.1 : ℤ), ex - (p.2 : ℤ))
      core.map (fun p => (if neg then -p.1 else p.1, p.2))

/-- Python `float(x)` on a JSON value: numbers are returned unchanged,
booleans become 0/1, strings are parsed, everything else raises (`none`,
caught by the surrounding `except`). -/
def pyFloatVal : JValue → Option (ℤ × ℤ)
  | .jnum n e => some (n, e)
  | .jbool b => some (if b then (1, 0) else (0, 0))
  | .jstr s => pyFloatOfChars s.data
  | _ => none

/-- The source expression `float(ratio) if ratio is not None else None`
wrapped in `try/except` (lines 203-206): `none` both for `None` and when
`float()` raises. -/
def ratioVal (r : JValue) : Option (ℤ × ℤ) :=
  match r with
  | .jnull => none
  | v => pyFloatVal v

/-- The membership test `ratio not in (None, "", [])` of line 208, negated:
`true` exactly on `None`, the empty string and the empty list (Python `==`
never identifies values of these shapes with numbers, booleans or dicts). -/
def inEmptyTuple : JValue → Bool
  | .jnull => true
  | .jstr s => s.data.isEmpty
  | .jarr xs => xs.isEmpty
  | _ => false

/-- Round `n * 10 ^ e` to the nearest integer, ties to even (the rounding
used when formatting with `:.2f`). -/
def scaleRound (n e : ℤ) : ℤ :=
  if 0 ≤ e then n * (10 : ℤ) ^ e.toNat
  else
    let p := (10 : ℤ) ^ (-e).toNat
    let q := n.ediv p
    let r := n.emod p
    if 2 * r < p then q else if p < 2 * r then q + 1
    else if q.emod 2 = 0 then q else q + 1

/-- Python `f"{x:.2f}"` on the decimal value `n * 10 ^ e`: the value rounded
to two decimal places, always showing two fractional digits, with the sign
taken from the input (so a negative value rounding to zero prints `-0.00`). -/
def formatFix2 (n e : ℤ) : String :=
  let a := (scaleRound n (e + 2)).natAbs
  let sign := if n < 0 then "-" else ""
  sign ++ toString (a / 100) ++ "."
    ++ (if a % 100 < 10 then "0" ++ toString (a % 100) else toString (a % 100))

/-- Decimal rendering of the number `n * 10 ^ e` for `str()`: integers
(`e = 0`) render with no point, other values with `(-e)` fractional digits.
The shortest-repr behaviour of Python float printing is not modelled;
this case is only reachable for numbers nested inside containers. -/
def numRepr (n e : ℤ) : String :=
  if 0 ≤ e then toString (n * (10 : ℤ) ^ e.toNat)
  else
    let a := n.natAbs
    let p := (10 : ℕ) ^ (-e).toNat
    (if n < 0 then "-" else "") ++ toString (a / p) ++ "." ++ toString (a % p)

mutual

/-- Python `repr()` of a JSON value (string escaping inside `repr` is not
modelled beyond the surrounding quotes). -/
def pyRepr : JValue → String
  | .jnull => "None"
  | .jbool true => "True"
  | .jbool false => "False"
  | .jnum n e => numRepr n e
  | .jstr s => "\x27" ++ s ++ "\x27"
  | .jarr xs => "[" ++ String.intercalate ", " (pyReprList xs) ++ "]"
  | .jobj fs => "\x7b" ++ String.intercalate ", " (pyReprFields fs) ++ "\x7d"

/-- `repr()` of the elements of a list. -/
def pyReprList : List JValue → List String
  | [] => []
  | v :: t => pyRepr v :: pyReprList t

/-- `repr()` of the entries of a dict. -/
def pyReprFields : List (String × JValue) → List String
  | [] => []
  | (k, v) :: t => ("\x27" ++ k ++ "\x27: " ++ pyRepr v) :: pyReprFields t

end

/-- Python `str()` of a JSON value: the string itself for strings, `repr`
otherwise. -/
def pyStr : JValue → String
  | .jstr s => s
  | v => pyRepr v

/-- The ratio text of line 208: the two-decimal format when `float()`
succeeded, else the stripped `str()` form, else the em dash. -/
def ratioText (r : JValue) : String :=
  match ratioVal r with
  | some p => formatFix2 p.1 p.2
  | none => if inEmptyTuple r then "—" else String.mk (stripWS (pyStr r).data)

/-- Outcome of the `requests.post` call issued by `post_predict`: either a
raised `requests.exceptions.RequestException` (covering DNS, connect,
timeout and TLS faults) with its description, or a response carrying an HTTP
status code and the result of `resp.json()` (`none` when the body did not
parse as JSON). -/
inductive HttpOutcome where
  | exn (desc : String)
  | resp (status : ℕ) (body : Option JValue)

/-- `requests.Response.ok`: true exactly when the status code is below 400. -/
def respOk (status : ℕ) : Bool := status < 400

/-- The fixed message returned when the `requests` package is missing. -/
def missingRequestsMsg : String :=
  "Python \x27requests\x27 package is not installed. Run: pip install -r requirements.txt"

/-- `post_predict` (lines 122-155): returns the pair `(json_data,
error_message)`.  The multipart POST itself is abstracted by `outcome`; the
file bytes and timeout feed only that call and do not otherwise affect the
result. -/
def post_predict (requestsAvailable : Bool) (base_url file_name : String)
    (file_bytes : List ℕ) (timeout_s : ℕ) (outcome : HttpOutcome) :
    Option (List (String × JValue)) × Option String :=
  if requestsAvailable = false then (none, some missingRequestsMsg)
  else
    match outcome with
    | .exn e => (none, some ("Failed to reach server: " ++ e))
    | .resp status body =>
      if respOk status = false then
        match body with
        | some (.jobj d) =>
          if (dictGet d "error").truthy then
            (none, some (pyStr (dictGet d "error") ++ "\nDetail: "
              ++ pyStr (dictGetD d "detail" (.jstr "N/A"))))
          else (none, some ("Server returned HTTP " ++ toString status))
        | _ => (none, some ("Server returned HTTP " ++ toString status))
      else
        match body with
        | some (.jobj d) => (some d, none)
        | _ => (none, some "Unexpected response from server (not JSON object).")

/-- The alternate-key extraction pattern of lines 197-199:
`data.get(k1) or data.get(k2)`. -/
def extractAlt (d : List (String × JValue)) (k1 k2 : String) : JValue :=
  pyOrJ (dictGet d k1) (dictGet d k2)

/-- Line 197: `data.get("classification") or data.get("final_classification")`. -/
def extractClassification (d : List (String × JValue)) : JValue :=
  extractAlt d "classification" "final_classification"

/-- Line 198: `data.get("detail") or data.get("details")`. -/
def extractDetail (d : List (String × JValue)) : JValue :=
  extractAlt d "detail" "details"

/-- Line 199: `data.get("ratio") or data.get("cdr")`. -/
def extractCdr (d : List (String × JValue)) : JValue :=
  extractAlt d "ratio" "cdr"

/-- Line 200: `data.get("annotated_image_url")`. -/
def extractAnnotatedUrl (d : List (String × JValue)) : JValue :=
  dictGet d "annotated_image_url"

/-- The display condition of line 240: the annotated image is rendered iff
the value is a string and `annotated_url.startswith("http")`. -/
def annotatedShown (v : JValue) : Bool :=
  match v with
  | .jstr s => startsWithCL "http".data s.data
  | _ => false

/-- Well-formed HTTP(S) URL as the spec words it ("well-formed and
HTTP(S)"): an `http://` or `https://` scheme followed by a nonempty
remainder.  This is the spec-side definition used to compare the claim
against the code-side `annotatedShown`. -/
def specWellFormedHttpUrl (s : String) : Bool :=
  (startsWithCL "http://".data s.data && decide (7 < s.data.length)) ||
  (startsWithCL "https://".data s.data && decide (8 < s.data.length))

/-- Python `html.escape` (quote=True) on one character. -/
def htmlEscapeChar (c : Char) : String :=
  if c == '&' then "&amp;"
  else if c == '<' then "&lt;"
  else if c == '>' then "&gt;"
  else if c == '"' then "&quot;"
  else if c == '\x27' then "&#x27;"
  else String.mk [c]

/-- Python `html.escape` (quote=True) on a string. -/
def htmlEscape (s : String) : String :=
  String.join (s.data.map htmlEscapeChar)

/-- Line 220 of the result card: `f"<p>{escape(str(detail))}</p>" if detail
else ""`. -/
def detailHtml (d : JValue) : String :=
  if d.truthy then "<p>" ++ htmlEscape (pyStr d) ++ "</p>" else ""

/-- The result-card markup of lines 214-232 (template indentation and
newlines elided): the classification badge is interpolated unescaped, the
detail and ratio texts only through `html.escape`. -/
def resultCardHtml (classificationText : String) (detailVal : JValue)
    (ratioTextValue : String) : String :=
  "<div class=\"card\"><div class=\"card-grid\"><div class=\"card-left\"><div>Classification: "
    ++ classification_badge classificationText ++ "</div>"
    ++ detailHtml detailVal
    ++ "</div><div class=\"card-right\"><div class=\"kpi\"><div class=\"label\">Cup-to-Disc Ratio</div><div class=\"value\">"
    ++ htmlEscape ratioTextValue
    ++ "</div></div></div></div></div>"

/-- Claim-side normalization as the spec words it: strip one trailing slash
(used to compare against the code's `rstrip("/")`). -/
def stripOneSlash (s : String) : String :=
  if s.data.getLast? = some '/' then String.mk s.data.dropLast else s

/-! ## Helper lemmas -/

theorem startsWithCL_iff (p l : List Char) : startsWithCL p l = true ↔ p <+: l := by
  induction p generalizing l with
  | nil => simp [startsWithCL]
  | cons a p ih =>
    cases l with
    | nil => simp [startsWithCL]
    | cons b m => simp [startsWithCL, List.cons_prefix_cons, ih, And.comm]

theorem hasSub_iff (p l : List Char) : hasSub p l = true ↔ p <:+: l := by
  induction l with
  | nil => cases p <;> simp [hasSub, List.isEmpty]
  | cons c t ih => simp [hasSub, startsWithCL_iff, ih, List.infix_cons_iff]

theorem dropWhile_head_not (p : Char → Bool) (l : List Char) (a : Char) (t : List Char)
    (h : l.dropWhile p = a :: t) : p a = false := by
  induction l with
  | nil => simp [List.dropWhile] at h
  | cons c m ih =>
    rw [List.dropWhile_cons] at h
    split at h
    · exact ih h
    · cases h
      simp_all

theorem infix_dropWhile_iff (q : Char → Bool) (a : Char) (pt l : List Char)
    (ha : q a = false) : a :: pt <:+: l.dropWhile q ↔ a :: pt <:+: l := by
  induction l with
  | nil => exact Iff.rfl
  | cons c m ih =>
    rw [List.dropWhile_cons]
    split
    · rw [ih, List.infix_cons_iff]
      constructor
      · exact Or.inr
      · rintro (hpre | hinf)
        · rw [List.cons_prefix_cons] at hpre
          obtain ⟨rfl, -⟩ := hpre
          simp_all
        · exact hinf
    · exact Iff.rfl

theorem infix_stripWS_iff (a : Char) (pt l : List Char)
    (ha : pyWhitespace a = false)
    (hb : ∀ c, (a :: pt).getLast? = some c → pyWhitespace c = false) :
    a :: pt <:+: stripWS l ↔ a :: pt <:+: l := by
  obtain ⟨b, rt, hrev⟩ : ∃ b rt, (a :: pt).reverse = b :: rt := by
    cases hr : (a :: pt).reverse with
    | nil => exact absurd hr (by simp)
    | cons b rt => exact ⟨b, rt, rfl⟩
  have hbws : pyWhitespace b = false := by
    refine hb b ?_
    rw [← List.head?_reverse, hrev]
    rfl
  unfold stripWS
  have step1 : a :: pt <:+: ((l.dropWhile pyWhitespace).reverse.dropWhile pyWhitespace).reverse
      ↔ (a :: pt).reverse <:+: (l.dropWhile pyWhitespace).reverse.dropWhile pyWhitespace := by
    conv_lhs => rw [show a :: pt = ((a :: pt).reverse).reverse from (List.reverse_reverse _).symm]
    exact List.reverse_infix
  have step2 : (a :: pt).reverse <:+: (l.dropWhile pyWhitespace).reverse.dropWhile pyWhitespace
      ↔ (a :: pt).reverse <:+: (l.dropWhile pyWhitespace).reverse := by
    rw [hrev]
    exact infix_dropWhile_iff pyWhitespace b rt _ hbws
  have step3 : (a :: pt).reverse <:+: (l.dropWhile pyWhitespace).reverse
      ↔ a :: pt <:+: l.dropWhile pyWhitespace := List.reverse_infix
  have step4 : a :: pt <:+: l.dropWhile pyWhitespace ↔ a :: pt <:+: l :=
    infix_dropWhile_iff pyWhitespace a pt l ha
  exact ((step1.trans step2).trans step3).trans step4

theorem hasSub_stripWS (a : Char) (pt l : List Char)
    (ha : pyWhitespace a = false)
    (hb : ∀ c, (a :: pt).getLast? = some c → pyWhitespace c = false) :
    hasSub (a :: pt) (stripWS l) = hasSub (a :: pt) l := by
  have hiff : hasSub (a :: pt) (stripWS l) = true ↔ hasSub (a :: pt) l = true := by
    rw [hasSub_iff, hasSub_iff]
    exact infix_stripWS_iff a pt l ha hb
  cases h1 : hasSub (a :: pt) (stripWS l) <;> cases h2 : hasSub (a :: pt) l
  · rfl
  · exact absurd (hiff.mpr h2) (by simp [h1])
  · exact absurd (hiff.mp h1) (by simp [h2])
  · rfl

theorem stringMk_data (s : String) : String.mk s.data = s := by
  cases s
  rfl

/-! ## Claims -/

/-- Claim C1: every call of `post_predict`, on every branch, returns a pair
`(json_data, error_message)` with exactly one component equal to `none`. -/
theorem c1_dispatch_exactly_one (avail : Bool) (b f : String) (bytes : List ℕ)
    (t : ℕ) (o : HttpOutcome) :
    ((post_predict avail b f bytes t o).1 = none ∧ (post_predict avail b f bytes t o).2 ≠ none) ∨
    ((post_predict avail b f bytes t o).1 ≠ none ∧ (post_predict avail b f bytes t o).2 = none) := by
  unfold post_predict
  cases avail with
  | false => simp
  | true =>
    cases o with
    | exn e => simp
    | resp status body =>
      by_cases hok : respOk status = false
      · simp only [hok, Bool.true_eq_false, if_false, if_true]
        cases body with
        | none => simp
        | some v =>
          cases v <;> simp
          next d =>
            split <;> simp
      · simp only [hok, Bool.true_eq_false, if_false]
        cases body with
        | none => simp
        | some v => cases v <;> simp

/-- Claim C2, counterexample: in the response object
`{"classification": "", "final_classification": "Glaucoma"}` the key
`classification` is present, yet the extracted value is the one bound to
`final_classification`, so "first present value wins" fails (the code tests
Python truthiness, not presence). -/
theorem c2_counterexample :
    lookupFirst [("classification", JValue.jstr ""), ("final_classification", JValue.jstr "Glaucoma")]
        "classification" = some (JValue.jstr "") ∧
    extractClassification
        [("classification", JValue.jstr ""), ("final_classification", JValue.jstr "Glaucoma")] =
      JValue.jstr "Glaucoma" ∧
    JValue.jstr "Glaucoma" ≠ JValue.jstr "" := by
  refine ⟨rfl, rfl, fun h => ?_⟩
  injection h with h2
  exact absurd h2 (by decide)

/-- Claim C2, amended: for each field with two alternate key names, the
first-named key's value is extracted when it is present with a truthy
(non-empty, non-null, non-zero) value; when the first key is absent or its
value is falsy, the second-named key's value is used instead. -/
theorem c2_first_truthy_wins (d : List (String × JValue)) (k1 k2 : String) :
    ((dictGet d k1).truthy = true → extractAlt d k1 k2 = dictGet d k1) ∧
    ((dictGet d k1).truthy = false → extractAlt d k1 k2 = dictGet d k2) ∧
    (lookupFirst d k1 = none → extractAlt d k1 k2 = dictGet d k2) := by
  refine ⟨fun h => ?_, fun h => ?_, fun h => ?_⟩
  · simp [extractAlt, pyOrJ, h]
  · simp [extractAlt, pyOrJ, h]
  · have hget : dictGet d k1 = JValue.jnull := by simp [dictGet, h]
    simp [extractAlt, pyOrJ, hget, JValue.truthy]

/-- Claim C2, witness: a truthy first key wins; a falsy (empty) first key
defers to the second key. -/
theorem c2_witness :
    extractAlt [("detail", JValue.jstr "ok"), ("details", JValue.jstr "alt")] "detail" "details" =
      dictGet [("detail", JValue.jstr "ok"), ("details", JValue.jstr "alt")] "detail" ∧
    extractAlt [("detail", JValue.jstr ""), ("details", JValue.jstr "alt")] "detail" "details" =
      dictGet [("detail", JValue.jstr ""), ("details", JValue.jstr "alt")] "details" :=
  ⟨(c2_first_truthy_wins _ _ _).1 (by decide), (c2_first_truthy_wins _ _ _).2.1 (by decide)⟩

/-- Claim C3, counterexample: the extracted ratio value `"n/a "` is
non-numeric and non-empty, but the displayed text is `"n/a"`, not the raw
string form `"n/a "` (the code strips surrounding whitespace). -/
theorem c3_counterexample :
    ratioVal (JValue.jstr "n/a ") = none ∧
    pyStr (JValue.jstr "n/a ") = "n/a " ∧
    ratioText (JValue.jstr "n/a ") = "n/a" ∧
    ("n/a" : String) ≠ "n/a " := by
  refine ⟨rfl, rfl, by decide, by decide⟩

/-- Claim C3, amended: if the extracted ratio value parses as a number, the
displayed text is that number formatted to two decimal places; if it is
non-numeric and non-empty, the displayed text is its raw string form with
leading and trailing whitespace stripped; if it is absent or empty the
displayed text is the em-dash placeholder. -/
theorem c3_ratio_text_cases (r : JValue) :
    (∀ n e, ratioVal r = some (n, e) → ratioText r = formatFix2 n e) ∧
    (ratioVal r = none → inEmptyTuple r = false →
      ratioText r = String.mk (stripWS (pyStr r).data)) ∧
    (inEmptyTuple r = true → ratioText r = "—") := by
  refine ⟨fun n e h => ?_, fun h hne => ?_, fun h => ?_⟩
  · unfold ratioText
    rw [h]
  · unfold ratioText
    rw [h, hne]
    rfl
  · have hnone : ratioVal r = none := by
      cases r with
      | jnull => rfl
      | jstr s =>
        have hs : s.data = [] := by
          simpa [inEmptyTuple, List.isEmpty_iff] using h
        show pyFloatOfChars s.data = none
        rw [hs]
        rfl
      | jarr xs => rfl
      | jbool b => exact absurd h (by simp [inEmptyTuple])
      | jnum n e => exact absurd h (by simp [inEmptyTuple])
      | jobj fs => exact absurd h (by simp [inEmptyTuple])
    unfold ratioText
    rw [hnone, h]
    rfl

/-- Claim C3, witness: `"0.6"` parses to the decimal 6·10⁻¹ and displays as
`"0.60"`; an absent ratio displays as the em dash. -/
theorem c3_witness :
    ratioText (JValue.jstr "0.6") = formatFix2 6 (-1) ∧
    formatFix2 6 (-1) = "0.60" ∧
    ratioText JValue.jnull = "—" :=
  ⟨(c3_ratio_text_cases _).1 6 (-1) (by decide), by decide, (c3_ratio_text_cases _).2.2 rfl⟩

/-- Claim C5, counterexample: a 300-status response (non-2xx, but `ok` for
`requests` since `ok` means status < 400) with a body containing an `error`
field is returned as a success, not a `PredictionError`; and a 500-status
response whose `error` field is the empty string yields the raw-status
message rather than the combined error/detail message. -/
theorem c5_counterexample :
    post_predict true "http://h" "f.png" [] 120
        (.resp 300 (some (JValue.jobj
          [("error", JValue.jstr "model unavailable"), ("detail", JValue.jstr "OOM")]))) =
      (some [("error", JValue.jstr "model unavailable"), ("detail", JValue.jstr "OOM")], none) ∧
    (post_predict true "http://h" "f.png" [] 120
        (.resp 500 (some (JValue.jobj [("error", JValue.jstr "")])))).2 =
      some "Server returned HTTP 500" := by
  exact ⟨rfl, by decide⟩

/-- Claim C5, amended: failure means `requests`' not-ok range, HTTP status
at least 400 (3xx statuses take the success path); for such a response whose
body is a JSON object with a truthy (non-empty) `error` field the returned
`PredictionError` combines the `error` and `detail` values (`"N/A"` when
`detail` is absent); any other response with status at least 400 yields a
`PredictionError` stating the raw HTTP status code. -/
theorem c5_failure_messages (b f : String) (bytes : List ℕ) (t status : ℕ)
    (body : Option JValue) (h : 400 ≤ status) :
    (∀ d, body = some (JValue.jobj d) → (dictGet d "error").truthy = true →
      post_predict true b f bytes t (.resp status body) =
        (none, some (pyStr (dictGet d "error") ++ "\nDetail: "
          ++ pyStr (dictGetD d "detail" (JValue.jstr "N/A"))))) ∧
    (∀ d, body = some (JValue.jobj d) → (dictGet d "error").truthy = false →
      post_predict true b f bytes t (.resp status body) =
        (none, some ("Server returned HTTP " ++ toString status))) ∧
    ((∀ d, body ≠ some (JValue.jobj d)) →
      post_predict true b f bytes t (.resp status body) =
        (none, some ("Server returned HTTP " ++ toString status))) := by
  have hok : respOk status = false := by
    simp only [respOk, decide_eq_false_iff_not]
    omega
  refine ⟨fun d hbody he => ?_, fun d hbody he => ?_, fun hbody => ?_⟩
  · subst hbody
    simp [post_predict, hok, he]
  · subst hbody
    simp [post_predict, hok, he]
  · unfold post_predict
    simp only [Bool.true_eq_false, if_false, hok, if_true]

/-- Claim C5, witness: HTTP 503 with body
`{"error": "model unavailable", "detail": "OOM"}` yields an error message
containing both `model unavailable` and `OOM`. -/
theorem c5_witness :
    post_predict true "http://h" "f.png" [] 120
        (.resp 503 (some (JValue.jobj
          [("error", JValue.jstr "model unavailable"), ("detail", JValue.jstr "OOM")]))) =
      (none, some "model unavailable\nDetail: OOM") ∧
    hasSub "model unavailable".data "model unavailable\nDetail: OOM".data = true ∧
    hasSub "OOM".data "model unavailable\nDetail: OOM".data = true := by
  refine ⟨?_, by decide, by decide⟩
  have happ := (c5_failure_messages "http://h" "f.png" [] 120 503
    (some (JValue.jobj
      [("error", JValue.jstr "model unavailable"), ("detail", JValue.jstr "OOM")]))
    (by omega)).1 _ rfl (by decide)
  have hmsg : pyStr (dictGet
        [("error", JValue.jstr "model unavailable"), ("detail", JValue.jstr "OOM")] "error")
      ++ "\nDetail: "
      ++ pyStr (dictGetD
        [("error", JValue.jstr "model unavailable"), ("detail", JValue.jstr "OOM")]
        "detail" (JValue.jstr "N/A")) = "model unavailable\nDetail: OOM" := by decide
  rw [happ, hmsg]

/-- Claim C6: a 2xx response whose body is missing (unparseable JSON) or not
a JSON object yields the fixed "unexpected response" `PredictionError`; the
parse failure is absorbed into `body = none` and never raises. -/
theorem c6_unexpected_response (b f : String) (bytes : List ℕ) (t status : ℕ)
    (body : Option JValue) (h1 : 200 ≤ status) (h2 : status ≤ 299)
    (h3 : ∀ d, body ≠ some (JValue.jobj d)) :
    post_predict true b f bytes t (.resp status body) =
      (none, some "Unexpected response from server (not JSON object).") := by
  have hok : respOk status = true := by
    simp only [respOk, decide_eq_true_eq]
    omega
  unfold post_predict
  simp only [Bool.true_eq_false, if_false, hok, Bool.true_eq_false,
    if_neg (by simp : ¬(true = false))]

/-- Claim C6, witness: HTTP 200 with a non-JSON body (parse result `none`)
returns the fixed "unexpected response" error. -/
theorem c6_witness :
    post_predict true "http://h" "img.png" [] 120 (.resp 200 none) =
      (none, some "Unexpected response from server (not JSON object).") :=
  c6_unexpected_response "http://h" "img.png" [] 120 200 none (by omega) (by omega)
    (fun d h => Option.noConfusion h)

/-- Claim C7: a raised transport fault (any `RequestException`) is caught
and converted into a `PredictionError` whose message carries the fault
description; `post_predict` still returns a pair (nothing propagates). -/
theorem c7_transport_fault (b f : String) (bytes : List ℕ) (t : ℕ) (e : String) :
    (post_predict true b f bytes t (.exn e)).1 = none ∧
    ∃ msg, (post_predict true b f bytes t (.exn e)).2 = some msg ∧ e.data <:+: msg.data := by
  refine ⟨rfl, "Failed to reach server: " ++ e, rfl, ?_⟩
  rw [String.data_append]
  exact (List.suffix_append _ _).isInfix

/-- Claim C8: the badge class is decided case-insensitively by substring
match on the classification text, with `non` taking precedence over
`suspect`, and everything else falling to the alert class. -/
theorem c8_badge_color (text : String) :
    (containsCI text "non" = true → badgeClass text = "badge-green") ∧
    (containsCI text "non" = false → containsCI text "suspect" = true →
      badgeClass text = "badge-amber") ∧
    (containsCI text "non" = false → containsCI text "suspect" = false →
      badgeClass text = "badge-red") := by
  have hnon : hasSub "non".data (stripWS (text.data.map pyLowerChar)) = containsCI text "non" :=
    hasSub_stripWS 'n' ['o', 'n'] (text.data.map pyLowerChar) (by decide) (by decide)
  have hsus : hasSub "suspect".data (stripWS (text.data.map pyLowerChar)) =
      containsCI text "suspect" :=
    hasSub_stripWS 's' ['u', 's', 'p', 'e', 'c', 't'] (text.data.map pyLowerChar)
      (by decide) (by decide)
  refine ⟨fun h1 => ?_, fun h1 h2 => ?_, fun h1 h2 => ?_⟩
  · simp [badgeClass, hnon, hsus, h1]
  · simp [badgeClass, hnon, hsus, h1, h2]
  · simp [badgeClass, hnon, hsus, h1, h2]

/-- Claim C8, witness: a classification containing `NON` (any case) gets the
green badge. -/
theorem c8_witness :
    containsCI "Non-glaucomatous" "non" = true ∧
    badgeClass "Non-glaucomatous" = "badge-green" :=
  ⟨by decide, (c8_badge_color "Non-glaucomatous").1 (by decide)⟩

/-- Claim C9, counterexample: the string `"httpbad"` is not a well-formed
HTTP(S) URL, yet the code displays the annotated image for it (the only
check performed is `startswith("http")`). -/
theorem c9_counterexample :
    annotatedShown (JValue.jstr "httpbad") = true ∧
    specWellFormedHttpUrl "httpbad" = false :=
  ⟨rfl, rfl⟩

/-- Claim C9, amended: the annotated image is displayed iff the extracted
value is a string whose text starts with `"http"`; in particular every
well-formed HTTP(S) URL is displayed, but so are some malformed strings
beginning with `"http"`; any non-string value shows the warning placeholder. -/
theorem c9_annotated_shown (v : JValue) :
    (annotatedShown v = true ↔
      ∃ s, v = JValue.jstr s ∧ startsWithCL "http".data s.data = true) ∧
    (∀ s, v = JValue.jstr s → specWellFormedHttpUrl s = true → annotatedShown v = true) := by
  constructor
  · cases v with
    | jstr s =>
      simp only [annotatedShown]
      constructor
      · exact fun h => ⟨s, rfl, h⟩
      · rintro ⟨s2, hs, h⟩
        cases hs
        exact h
    | jnull => simp [annotatedShown]
    | jbool b => simp [annotatedShown]
    | jnum n e => simp [annotatedShown]
    | jarr xs => simp [annotatedShown]
    | jobj fs => simp [annotatedShown]
  · rintro s rfl hw
    show startsWithCL "http".data s.data = true
    rw [startsWithCL_iff]
    rcases Bool.or_eq_true _ _ |>.mp hw with h | h
    · have hp : "http://".data <+: s.data :=
        (startsWithCL_iff _ _).mp (Bool.and_eq_true _ _ |>.mp h).1
      exact List.IsPrefix.trans (by decide) hp
    · have hp : "https://".data <+: s.data :=
        (startsWithCL_iff _ _).mp (Bool.and_eq_true _ _ |>.mp h).1
      exact List.IsPrefix.trans (by decide) hp

/-- Claim C9, witness: a well-formed HTTPS URL is displayed. -/
theorem c9_witness :
    annotatedShown (JValue.jstr "https://x/img.png") = true :=
  (c9_annotated_shown (JValue.jstr "https://x/img.png")).2 "https://x/img.png" rfl (by decide)

/-- Claim C4: for a base URL with at most one trailing slash, the request
URL is the base with one trailing slash stripped followed by `/predict`; it
ends in `/predict` and not in `//predict` (no double slash). -/
theorem c4_predict_url (base : String) (h : endsWithCL ['/', '/'] base.data = false) :
    buildPredictUrl base = stripOneSlash base ++ "/predict" ∧
    endsWithCL "/predict".data (buildPredictUrl base).data = true ∧
    endsWithCL "//predict".data (buildPredictUrl base).data = false := by
  refine ⟨?_, ?_, ?_⟩
  · cases hR : base.data.reverse with
    | nil =>
      have hbd : base.data = [] := by
        simpa using congrArg List.reverse hR
      have h1 : buildPredictUrl base = String.mk [] ++ "/predict" := by
        unfold buildPredictUrl rstripSlashes
        rw [hR]
        rfl
      have h2 : stripOneSlash base = base := by
        unfold stripOneSlash
        rw [hbd]
        rfl
      rw [h1, h2]
      refine congrArg (· ++ "/predict") ?_
      exact String.ext (by rw [hbd])
    | cons c t =>
      have hbd : base.data = t.reverse ++ [c] := by
        have := congrArg List.reverse hR
        simpa using this
      by_cases hc : c = '/'
      · subst hc
        have hstart : startsWithCL ['/'] t = false := by
          have h2 : startsWithCL ['/', '/'] base.data.reverse = false := h
          rw [hR] at h2
          simpa [startsWithCL] using h2
        have hdrop : t.dropWhile (· == '/') = t := by
          cases t with
          | nil => rfl
          | cons d m =>
            have hd : ('/' == d) = false := by
              simpa [startsWithCL] using hstart
            have hd2 : (d == '/') = false := by
              by_contra hcon
              rw [Bool.not_eq_false, beq_iff_eq] at hcon
              subst hcon
              simp at hd
            simp [List.dropWhile_cons, hd2]
        have h1 : buildPredictUrl base = String.mk t.reverse ++ "/predict" := by
          unfold buildPredictUrl rstripSlashes
          rw [hR, List.dropWhile_cons]
          simp [hdrop]
        have h2 : stripOneSlash base = String.mk t.reverse := by
          unfold stripOneSlash
          rw [hbd]
          simp [List.getLast?_concat, List.dropLast_concat]
        rw [h1, h2]
      · have h1 : buildPredictUrl base = String.mk base.data ++ "/predict" := by
          unfold buildPredictUrl rstripSlashes
          rw [hR, List.dropWhile_cons]
          have : (c == '/') = false := by
            simpa [beq_iff_eq] using hc
          rw [this]
          simp only [if_neg (by simp : ¬(false = true))]
          rw [← hR]
          simp
        have h2 : stripOneSlash base = base := by
          unfold stripOneSlash
          rw [hbd]
          rw [List.getLast?_concat]
          simp [hc]
        rw [h1, h2, stringMk_data]
  · unfold endsWithCL
    rw [startsWithCL_iff]
    unfold buildPredictUrl
    rw [String.data_append, List.reverse_append]
    exact List.prefix_append _ _
  · rw [Bool.eq_false_iff]
    intro hcontra
    unfold endsWithCL at hcontra
    rw [startsWithCL_iff] at hcontra
    unfold buildPredictUrl at hcontra
    rw [String.data_append, List.reverse_append] at hcontra
    have hsplit : "//predict".data.reverse = "/predict".data.reverse ++ ['/'] := by decide
    rw [hsplit] at hcontra
    have hslash : ['/'] <+: (String.mk (rstripSlashes base.data)).data.reverse := by
      exact (List.prefix_append_right_inj _).mp hcontra
    obtain ⟨tl, htl⟩ := hslash
    have hrev : (String.mk (rstripSlashes base.data)).data.reverse =
        base.data.reverse.dropWhile (· == '/') := by
      show (rstripSlashes base.data).reverse = _
      unfold rstripSlashes
      rw [List.reverse_reverse]
    rw [hrev] at htl
    have : ('/' == '/') = false :=
      dropWhile_head_not (· == '/') base.data.reverse '/' tl htl.symm
    simp at this

/-- Claim C4, witness: a base URL with one trailing slash resolves to a
single `/predict` suffix with no double slash. -/
theorem c4_witness :
    buildPredictUrl "http://h/" = stripOneSlash "http://h/" ++ "/predict" ∧
    endsWithCL "/predict".data (buildPredictUrl "http://h/").data = true ∧
    endsWithCL "//predict".data (buildPredictUrl "http://h/").data = false :=
  c4_predict_url "http://h/" (by decide)

theorem infix_append_right_str (x : List Char) (s t : String) (h : x <:+: t.data) :
    x <:+: (s ++ t).data := by
  rw [String.data_append]
  exact h.trans (List.suffix_append _ _).isInfix

theorem infix_append_left_str (x : List Char) (s t : String) (h : x <:+: s.data) :
    x <:+: (s ++ t).data := by
  rw [String.data_append]
  exact h.trans (List.prefix_append _ _).isInfix

/-- Claim C10: the badge markup contains the classification text verbatim
(no HTML escaping; only the class token, one of the three badge classes,
depends on the content), and within the same result card the detail text and
the ratio text are inserted only through `html.escape`. -/
theorem c10_escaping (text : String) (d : JValue) (rt : String) :
    (badgeClass text = "badge-green" ∨ badgeClass text = "badge-amber" ∨
      badgeClass text = "badge-red") ∧
    classification_badge text =
      "<span class=\"status-badge " ++ badgeClass text ++ "\">" ++ text ++ "</span>" ∧
    text.data <:+: (resultCardHtml text d rt).data ∧
    (d.truthy = true → (htmlEscape (pyStr d)).data <:+: (resultCardHtml text d rt).data) ∧
    (htmlEscape rt).data <:+: (resultCardHtml text d rt).data := by
  refine ⟨?_, rfl, ?_, fun htr => ?_, ?_⟩
  · by_cases h1 : hasSub "non".data (stripWS (text.data.map pyLowerChar)) = true
    · exact Or.inl (by simp [badgeClass, h1])
    · by_cases h2 : hasSub "suspect".data (stripWS (text.data.map pyLowerChar)) = true
      · exact Or.inr (Or.inl (by simp [badgeClass, h1, h2]))
      · exact Or.inr (Or.inr (by simp [badgeClass, h1, h2]))
  · unfold resultCardHtml
    refine infix_append_left_str _ _ _ ?_
    refine infix_append_left_str _ _ _ ?_
    refine infix_append_left_str _ _ _ ?_
    refine infix_append_left_str _ _ _ ?_
    refine infix_append_left_str _ _ _ ?_
    refine infix_append_right_str _ _ _ ?_
    unfold classification_badge
    refine infix_append_left_str _ _ _ ?_
    refine infix_append_right_str _ _ _ ?_
    exact List.infix_refl _
  · unfold resultCardHtml
    refine infix_append_left_str _ _ _ ?_
    refine infix_append_left_str _ _ _ ?_
    refine infix_append_left_str _ _ _ ?_
    refine infix_append_right_str _ _ _ ?_
    rw [show detailHtml d = "<p>" ++ htmlEscape (pyStr d) ++ "</p>" from by
      simp [detailHtml, htr]]
    refine infix_append_left_str _ _ _ ?_
    refine infix_append_right_str _ _ _ ?_
    exact List.infix_refl _
  · unfold resultCardHtml
    refine infix_append_left_str _ _ _ ?_
    refine infix_append_right_str _ _ _ ?_
    exact List.infix_refl _

/-- Claim C10, witness: a detail text containing markup appears in the card
only in escaped form. -/
theorem c10_witness :
    (htmlEscape (pyStr (JValue.jstr "note<b>"))).data <:+:
      (resultCardHtml "Glaucoma" (JValue.jstr "note<b>") "0.60").data :=
  (c10_escaping "Glaucoma" (JValue.jstr "note<b>") "0.60").2.2.2.1 (by decide)

end Glaucoma
